/-
Verification of the simulation core of the `growingstars` farming game.

The TypeScript sources are shallowly embedded: continuous quantities
(world pixels, milliseconds, seconds) are rationals, JavaScript
`Math.floor` is `Int.floor` on ℚ, `%` on the (non-negative, reachable)
integer values is `Int.emod`, and the mutable class state is passed
explicitly.  Each definition mirrors one method of the source.
-/
import Mathlib

namespace GrowingStars

/-! ## Configuration constants (src/configuration/gameConstants.ts) -/

structure PlantConfig where
  size : ℚ
  growthDurationSeconds : ℚ
  spacingThreshold : ℚ
  seedScaleFactor : ℚ

def PLANT_CONFIG : PlantConfig :=
  { size := 12
    growthDurationSeconds := 4
    spacingThreshold := 30
    seedScaleFactor := 1/2 }

structure TileConfig where
  tileSize : ℚ

def TILE_CONFIG : TileConfig := { tileSize := 32 }

structure RenderConfig where
  playerScale : ℚ
  framesPerSecond : ℚ

def RENDER_CONFIG : RenderConfig := { playerScale := 3/2, framesPerSecond := 10 }

structure FeetCollisionBox where
  widthRatio : ℚ
  heightPixels : ℚ

structure PlayerConfig where
  movementSpeed : ℚ
  feetCollisionBox : FeetCollisionBox

def PLAYER_CONFIG : PlayerConfig :=
  { movementSpeed := 180
    feetCollisionBox := { widthRatio := 2/5, heightPixels := 12 } }

/-! ## Plant data model (src/types/plantSystem.types.ts) -/

inductive PlantType where
  | eye | tentacle | jaws | spike | orb | mushroom
  deriving DecidableEq, Repr

structure PlantEntity where
  xPosition : ℚ
  yPosition : ℚ
  plantingTime : ℚ
  watered : Bool
  wateringStartTime : Option ℚ
  hasGrown : Bool
  plantType : PlantType
  deriving DecidableEq, Repr

structure ClickPosition where
  x : ℚ
  y : ℚ
  deriving DecidableEq, Repr

/-! ## PlantManagementSystem (src/modules/plantGrowth/PlantManagementSystem.ts)

`performance.now()` is passed in as the explicit parameter `now`
(milliseconds); the `plantedEntities` array is the explicit list. -/

/-- One entity's step of `updatePlantGrowth`: grown and unwatered plants are
skipped; otherwise the elapsed seconds since `wateringStartTime ?? plantingTime`
are compared against the growth duration. -/
def growPlant (now : ℚ) (p : PlantEntity) : PlantEntity :=
  if p.hasGrown then p
  else if p.watered = false then p
  else if PLANT_CONFIG.growthDurationSeconds ≤
      (now - p.wateringStartTime.getD p.plantingTime) / 1000 then
    { p with hasGrown := true }
  else p

/-- `updatePlantGrowth`: the `forEach` over `plantedEntities`. -/
def updatePlantGrowth (now : ℚ) (l : List PlantEntity) : List PlantEntity :=
  l.map (growPlant now)

/-- Iterating `growPlant` over a list of frame times. -/
def growIter (ts : List ℚ) (p : PlantEntity) : PlantEntity :=
  ts.foldl (fun q t => growPlant t q) p

/-- `plantSeed`: push a fresh entity (the randomly drawn or overridden type is
the explicit parameter `ty`). -/
def plantSeed (l : List PlantEntity) (position : ClickPosition) (ty : PlantType)
    (now : ℚ) : List PlantEntity :=
  l ++ [{ xPosition := position.x
          yPosition := position.y
          plantingTime := now
          watered := false
          wateringStartTime := none
          hasGrown := false
          plantType := ty }]

/-- The `find` predicate of `handlePlantingClick`: an existing plant within the
spacing threshold on both axes independently. -/
def nearbyPred (clickPosition : ClickPosition) (plant : PlantEntity) : Bool :=
  decide (|plant.xPosition - clickPosition.x| < PLANT_CONFIG.spacingThreshold ∧
          |plant.yPosition - clickPosition.y| < PLANT_CONFIG.spacingThreshold)

/-- `handlePlantingClick`: reject when some existing plant is nearby, else
append one seed. -/
def handlePlantingClick (l : List PlantEntity) (clickPosition : ClickPosition)
    (ty : PlantType) (now : ℚ) : List PlantEntity × Bool :=
  match l.find? (nearbyPred clickPosition) with
  | none => (plantSeed l clickPosition ty now, true)
  | some _ => (l, false)

/-- `waterAtTile`: find the first not-grown plant occupying the tile; water it
unless it is already watered. -/
def waterAtTile (l : List PlantEntity) (tileX tileY : ℤ) (tileSize : ℚ)
    (now : ℚ) : List PlantEntity × Bool :=
  match l with
  | [] => ([], false)
  | p :: rest =>
    if p.hasGrown = false ∧ ⌊p.xPosition / tileSize⌋ = tileX ∧
        ⌊p.yPosition / tileSize⌋ = tileY then
      if p.watered then (p :: rest, false)
      else ({ p with watered := true, wateringStartTime := some now } :: rest, true)
    else
      let r := waterAtTile rest tileX tileY tileSize now
      (p :: r.1, r.2)

/-- The scan of `waterNearest`: running best (index, squared distance) over the
remaining list, skipping grown or watered plants; `none` plays the role of the
initial `bestDistSq = +∞`. -/
def scanBest (pos : ℚ × ℚ) (maxDistance : ℚ) :
    List PlantEntity → ℕ → Option (ℕ × ℚ) → Option (ℕ × ℚ)
  | [], _, best => best
  | p :: rest, i, best =>
    if p.hasGrown then scanBest pos maxDistance rest (i + 1) best
    else if p.watered then scanBest pos maxDistance rest (i + 1) best
    else
      let dx := p.xPosition - pos.1
      let dy := p.yPosition - pos.2
      let d2 := dx * dx + dy * dy
      match best with
      | none =>
        if d2 ≤ maxDistance * maxDistance then
          scanBest pos maxDistance rest (i + 1) (some (i, d2))
        else scanBest pos maxDistance rest (i + 1) none
      | some (bi, bd) =>
        if d2 ≤ maxDistance * maxDistance ∧ d2 < bd then
          scanBest pos maxDistance rest (i + 1) (some (i, d2))
        else scanBest pos maxDistance rest (i + 1) (some (bi, bd))

/-- `waterNearest`: water the plant found by the scan, if any. -/
def waterNearest (l : List PlantEntity) (pos : ℚ × ℚ) (maxDistance : ℚ)
    (now : ℚ) : List PlantEntity × Bool :=
  match scanBest pos maxDistance l 0 none with
  | none => (l, false)
  | some (k, _) =>
    match l.get? k with
    | none => (l, false)
    | some p => (l.set k { p with watered := true, wateringStartTime := some now }, true)

/-- `waterAllUnwatered`: water every not-grown, not-watered plant, counting. -/
def waterAllUnwatered (l : List PlantEntity) (t : ℚ) : List PlantEntity × ℕ :=
  match l with
  | [] => ([], 0)
  | p :: rest =>
    let r := waterAllUnwatered rest t
    if p.hasGrown then (p :: r.1, r.2)
    else if p.watered then (p :: r.1, r.2)
    else ({ p with watered := true, wateringStartTime := some t } :: r.1, r.2 + 1)

/-! ## TimeManager (src/modules/time/TimeManager.ts) -/

inductive Weather where
  | clear | cloud | storm
  deriving DecidableEq, Repr

structure TimeState where
  day : ℤ
  secondsIntoDay : ℚ
  dayDurationSeconds : ℚ
  seasonIndex : ℤ
  weather : Weather
  deriving DecidableEq, Repr

structure GameTime where
  day : ℤ
  hour : ℤ
  totalHours : ℤ
  deriving DecidableEq, Repr

/-- `getCurrentGameTime`: derive the integral hour from the day progress. -/
def getCurrentGameTime (s : TimeState) : GameTime :=
  let dayProgressRatio := s.secondsIntoDay / s.dayDurationSeconds
  let totalMinutesInCurrentDay := ⌊dayProgressRatio * 24 * 60⌋
  let currentHour := (⌊(totalMinutesInCurrentDay : ℚ) / 60⌋) % 24
  { day := s.day
    hour := currentHour
    totalHours := (s.day - 1) * 24 + currentHour }

/-- `updateTime`: advance `secondsIntoDay`; on overflow increment the day,
reset to 0 and recompute the season. -/
def updateTime (s : TimeState) (deltaTimeSeconds : ℚ) : TimeState :=
  let s1 := { s with secondsIntoDay := s.secondsIntoDay + deltaTimeSeconds }
  if s1.dayDurationSeconds ≤ s1.secondsIntoDay then
    let day2 := s1.day + 1
    { s1 with
        day := day2
        secondsIntoDay := 0
        seasonIndex := (⌊((day2 - 1 : ℤ) : ℚ) / 10⌋) % 4 }
  else s1

/-- `setTimeToHour`: optionally advance the day, set `secondsIntoDay` to the
given hour and recompute the season. -/
def setTimeToHour (s : TimeState) (targetHour : ℚ) (nextDay : Bool) : TimeState :=
  let day2 := if nextDay then s.day + 1 else s.day
  { s with
      day := day2
      secondsIntoDay := (targetHour / 24) * s.dayDurationSeconds
      seasonIndex := (⌊((day2 - 1 : ℤ) : ℚ) / 10⌋) % 4 }

/-! ## StaminaSystem (src/modules/player/StaminaSystem.ts)

The two injected callbacks are modelled as counters in the step result:
how many times the coin-penalty callback and the notification callback
were invoked during the call. -/

structure StaminaState where
  current : ℚ
  maximum : ℚ
  lastSleepTime : ℚ
  hasSleptToday : Bool
  showedSleepReminder : Bool
  lastPenaltyDay : ℤ
  lastReminderDay : ℤ
  deriving DecidableEq, Repr

structure StaminaConfig where
  maxStamina : ℚ
  depletionRate : ℚ
  sleepReminderHour : ℤ
  midnightPenalty : ℚ
  deriving DecidableEq, Repr

/-- The constructor defaults (the engine passes no overrides). -/
def defaultStaminaConfig : StaminaConfig :=
  { maxStamina := 100
    depletionRate := 100 / 17
    sleepReminderHour := 22
    midnightPenalty := 10 }

/-- The constructor's initial state. -/
def initialStaminaState : StaminaState :=
  { current := defaultStaminaConfig.maxStamina
    maximum := defaultStaminaConfig.maxStamina
    lastSleepTime := 7
    hasSleptToday := false
    showedSleepReminder := false
    lastPenaltyDay := 0
    lastReminderDay := 0 }

/-- The continuous total hours computed inside `updateStaminaDepletion`,
`sleep` and `autoSleep`: `(day - 1) * 24 + (secondsIntoDay / dayDurationSeconds) * 24`. -/
def continuousTotalHours (ts : TimeState) : ℚ :=
  ((ts.day : ℚ) - 1) * 24 + (ts.secondsIntoDay / ts.dayDurationSeconds) * 24

/-- `resetDailyFlags`: the source's `lastSleepDay` is inlined into the
comparison. -/
def resetDailyFlags (st : StaminaState) (currentTime : GameTime) : StaminaState :=
  if ⌊(st.lastSleepTime - 7) / 24⌋ + 1 < currentTime.day then
    { st with hasSleptToday := false, showedSleepReminder := false }
  else st

/-- `updateStaminaDepletion`: recompute `current` from the continuous hours
since last sleep, with the hard-coded hourly rate `100 / 17`. -/
def updateStaminaDepletion (st : StaminaState) (ts : TimeState) : StaminaState :=
  let hoursSinceLastSleep := continuousTotalHours ts - st.lastSleepTime
  let expectedStamina := max 0 (st.maximum - hoursSinceLastSleep * (100 / 17))
  let newStamina := max 0 (min st.maximum expectedStamina)
  { st with current := newStamina }

/-- `checkSleepReminder` (notification-only; returns the notification count). -/
def checkSleepReminder (st : StaminaState) (currentTime : GameTime) :
    StaminaState × ℕ :=
  if currentTime.hour = defaultStaminaConfig.sleepReminderHour ∧
      st.hasSleptToday = false ∧ st.lastReminderDay < currentTime.day then
    ({ st with lastReminderDay := currentTime.day, showedSleepReminder := true }, 1)
  else (st, 0)

/-- `autoSleep`: warp the clock to 7 AM (advancing the day when the current
hour is ≥ 7), restore stamina and re-anchor `lastSleepTime`. -/
def autoSleep (st : StaminaState) (ts : TimeState) : StaminaState × TimeState :=
  let currentTime := getCurrentGameTime ts
  let needsNextDay := decide (7 ≤ currentTime.hour)
  let ts2 := setTimeToHour ts 7 needsNextDay
  let newDayProgress := ts2.secondsIntoDay / ts2.dayDurationSeconds
  let newHourFloat := newDayProgress * 24
  ({ st with
      current := st.maximum
      lastSleepTime := ((ts2.day : ℚ) - 1) * 24 + newHourFloat
      hasSleptToday := true
      showedSleepReminder := false }, ts2)

/-- `checkAutoSleep`: apply the once-per-day coin penalty and auto-sleep when
stamina has hit 0.  The returned number counts coin-penalty invocations. -/
def checkAutoSleep (st : StaminaState) (ts : TimeState) :
    StaminaState × TimeState × ℕ :=
  let currentTime := getCurrentGameTime ts
  if st.current ≤ 0 ∧ st.lastPenaltyDay < currentTime.day then
    let st2 := { st with lastPenaltyDay := currentTime.day }
    let r := autoSleep st2 ts
    (r.1, r.2, 1)
  else (st, ts, 0)

/-- `StaminaSystem.update`: daily-flag reset, depletion recompute, sleep
reminder, auto-sleep check, in this order.  Returns the new stamina and time
states and the number of coin-penalty invocations. -/
def staminaUpdate (st : StaminaState) (ts : TimeState) :
    StaminaState × TimeState × ℕ :=
  let currentTime := getCurrentGameTime ts
  let st1 := resetDailyFlags st currentTime
  let st2 := updateStaminaDepletion st1 ts
  let st3 := (checkSleepReminder st2 currentTime).1
  checkAutoSleep st3 ts

/-- Iterated `update` calls (the clock not advanced in between), summing the
coin-penalty invocations. -/
def staminaIter : ℕ → StaminaState → TimeState → StaminaState × TimeState × ℕ
  | 0, st, ts => (st, ts, 0)
  | n + 1, st, ts =>
    let r := staminaUpdate st ts
    let r2 := staminaIter n r.1 r.2.1
    (r2.1, r2.2.1, r.2.2 + r2.2.2)

/-! ## Fade transition (src/core/GameEngine.ts, updateGameState /
startFadeTransition)

The mid-point callback is modelled as the Bool in the step result. -/

structure FadeTransitionState where
  active : Bool
  startTime : ℚ
  duration : ℚ
  midPointFired : Bool
  deriving DecidableEq, Repr

/-- `startFadeTransition` (default duration 600 ms is supplied by callers). -/
def startFadeTransition (now duration : ℚ) : FadeTransitionState :=
  { active := true, startTime := now, duration := duration, midPointFired := false }

/-- The per-frame fade update inside `updateGameState`; the Bool reports
whether the mid-point callback fired during this frame. -/
def fadeUpdate (s : FadeTransitionState) (now : ℚ) : FadeTransitionState × Bool :=
  if s.active then
    let t := now - s.startTime
    let fire := s.midPointFired = false ∧ s.duration / 2 ≤ t
    let s1 := if fire then { s with midPointFired := true } else s
    let s2 := if s1.duration ≤ t then { s1 with active := false } else s1
    (s2, decide fire)
  else (s, false)

/-- Run the fade update over a list of frame times, returning the final state
and the per-frame fired flags. -/
def fadeRun (s : FadeTransitionState) : List ℚ → FadeTransitionState × List Bool
  | [] => (s, [])
  | t :: ts =>
    let r := fadeUpdate s t
    let r2 := fadeRun r.1 ts
    (r2.1, r.2 :: r2.2)

/-! ## PlayerMovementSystem.resolveCollisions
(src/modules/playerCharacter/PlayerMovementSystem.ts) -/

structure Rect where
  x : ℚ
  y : ℚ
  w : ℚ
  h : ℚ
  deriving DecidableEq, Repr

/-- The feet collision box of a player centred at `(x, y)` with sprite frame
size `sfw × sfh`: a narrow slice at the bottom of the displayed sprite. -/
def feetBox (sfw sfh x y : ℚ) : Rect :=
  let displayWidth := sfw * RENDER_CONFIG.playerScale
  let displayHeight := sfh * RENDER_CONFIG.playerScale
  let halfH := displayHeight / 2
  let feetWidth := max 6 (min displayWidth
    (displayWidth * PLAYER_CONFIG.feetCollisionBox.widthRatio))
  let feetHeight := PLAYER_CONFIG.feetCollisionBox.heightPixels
  { x := x - feetWidth / 2
    y := (y + halfH) - feetHeight
    w := feetWidth
    h := feetHeight }

/-- The strict AABB overlap test used in the collision loop. -/
def rectsOverlap (a r : Rect) : Prop :=
  a.x < r.x + r.w ∧ r.x < a.x + a.w ∧ a.y < r.y + r.h ∧ r.y < a.y + a.h

instance (a r : Rect) : Decidable (rectsOverlap a r) := by
  unfold rectsOverlap; infer_instance

/-- One iteration of the `resolveCollisions` loop: if the feet box overlaps
`r`, push the player out along the axis preferred by the frame displacement. -/
def resolveStep (sfw sfh dx dy : ℚ) (pos : ℚ × ℚ) (r : Rect) : ℚ × ℚ :=
  let fb := feetBox sfw sfh pos.1 pos.2
  if rectsOverlap fb r then
    let penRight := (r.x + r.w) - fb.x
    let penLeft := (fb.x + fb.w) - r.x
    let penDown := (r.y + r.h) - fb.y
    let penUp := (fb.y + fb.h) - r.y
    let preferX := |dy| ≤ |dx|
    if preferX then
      if 0 < dx then (pos.1 - penLeft, pos.2)
      else if dx < 0 then (pos.1 + penRight, pos.2)
      else if penLeft < penRight then (pos.1 - penLeft, pos.2)
      else (pos.1 + penRight, pos.2)
    else
      if 0 < dy then (pos.1, pos.2 - penUp)
      else if dy < 0 then (pos.1, pos.2 + penDown)
      else if penUp < penDown then (pos.1, pos.2 - penUp)
      else (pos.1, pos.2 + penDown)
  else pos

/-- `resolveCollisions`: sequential resolution against the supplied list,
skipped entirely when the sprite dimensions are not yet initialized. -/
def resolveCollisions (sfw sfh x y dx dy : ℚ) (rects : List Rect) : ℚ × ℚ :=
  if sfw = 0 ∨ sfh = 0 then (x, y)
  else rects.foldl (resolveStep sfw sfh dx dy) (x, y)

/-! ## GameEngine.getFeetAdjacentInteraction (src/core/GameEngine.ts) -/

inductive InteractionKind where
  | well | ship | enterHouse | exitHouse | bed | storefront
  deriving DecidableEq, Repr

structure InteractionArea where
  x : ℚ
  y : ℚ
  kind : InteractionKind
  deriving DecidableEq, Repr

/-- The adjacency test of the loop body: tile-Manhattan distance at most 1
between the feet tile and the area's tile. -/
def adjacentArea (ftX ftY : ℤ) (a : InteractionArea) : Prop :=
  |ftX - ⌊a.x / TILE_CONFIG.tileSize⌋| + |ftY - ⌊a.y / TILE_CONFIG.tileSize⌋| ≤ 1

instance (ftX ftY : ℤ) (a : InteractionArea) : Decidable (adjacentArea ftX ftY a) := by
  unfold adjacentArea; infer_instance

/-- The `for` loop of `getFeetAdjacentInteraction`: return the first adjacent
area. -/
def findAdjacentArea (ftX ftY : ℤ) : List InteractionArea → Option InteractionArea
  | [] => none
  | a :: rest =>
    if adjacentArea ftX ftY a then some a else findAdjacentArea ftX ftY rest

/-- `getFeetAdjacentInteraction`: resolve the feet position to a tile and
return the kind of the first adjacent interaction area (the source returns the
record `\x7b kind \x7d` of that area). -/
def getFeetAdjacentInteraction (feetX feetY : ℚ)
    (areas : List InteractionArea) : Option InteractionKind :=
  let tile := TILE_CONFIG.tileSize
  (findAdjacentArea ⌊feetX / tile⌋ ⌊feetY / tile⌋ areas).map (fun a => a.kind)

/-! ## GameEngine.handleWatering (src/core/GameEngine.ts) -/

inductive Direction where
  | up | left | down | right
  deriving DecidableEq, Repr

/-- The candidate loop of `handleWatering`, breaking at the first tile
successfully watered. -/
def tryCandidates : List PlantEntity → List (ℤ × ℤ) → ℚ → ℚ →
    List PlantEntity × Bool
  | l, [], _, _ => (l, false)
  | l, c :: cs, tile, now =>
    let r := waterAtTile l c.1 c.2 tile now
    if r.2 then (r.1, true) else tryCandidates r.1 cs tile now

/-- The candidate tiles of `handleWatering`: forward, current and the four
orthogonal neighbors of the feet tile. -/
def wateringCandidates (feetX feetY : ℚ) (facing : Direction) : List (ℤ × ℤ) :=
  let tile := TILE_CONFIG.tileSize
  let ftX := ⌊feetX / tile⌋
  let ftY := ⌊feetY / tile⌋
  let fwd :=
    match facing with
    | .up => (ftX, ftY - 1)
    | .down => (ftX, ftY + 1)
    | .left => (ftX - 1, ftY)
    | .right => (ftX + 1, ftY)
  [fwd, (ftX, ftY), (ftX - 1, ftY), (ftX + 1, ftY), (ftX, ftY - 1), (ftX, ftY + 1)]

/-- `handleWatering`: require one unit of water (else untouched), then try the
candidate tiles in order, falling back to `waterNearest` around the feet.
Returns the plant list, the remaining water and the `watered` flag of the
candidate loop. -/
def handleWatering (water : ℤ) (plants : List PlantEntity)
    (feetX feetY : ℚ) (facing : Direction) (now : ℚ) :
    List PlantEntity × ℤ × Bool :=
  if water < 1 then (plants, water, false)
  else if (tryCandidates plants (wateringCandidates feetX feetY facing)
      TILE_CONFIG.tileSize now).2 then
    ((tryCandidates plants (wateringCandidates feetX feetY facing)
      TILE_CONFIG.tileSize now).1, water - 1, true)
  else
    ((waterNearest (tryCandidates plants (wateringCandidates feetX feetY facing)
        TILE_CONFIG.tileSize now).1 (feetX, feetY)
      (TILE_CONFIG.tileSize * (95/100)) now).1, water - 1, false)

/-! ## Helper lemmas for the plant system -/

/-- Iterating `updatePlantGrowth` over a list of frame times. -/
def updateIter (ts : List ℚ) (l : List PlantEntity) : List PlantEntity :=
  ts.foldl (fun acc t => updatePlantGrowth t acc) l

lemma growIter_cons (t : ℚ) (ts : List ℚ) (p : PlantEntity) :
    growIter (t :: ts) p = growIter ts (growPlant t p) := rfl

lemma growPlant_watered_eq (now : ℚ) (p : PlantEntity) :
    (growPlant now p).watered = p.watered := by
  unfold growPlant
  split_ifs <;> rfl

lemma growPlant_of_unwatered {p : PlantEntity} (now : ℚ) (h : p.watered = false) :
    growPlant now p = p := by
  simp [growPlant, h]

lemma growIter_of_unwatered {p : PlantEntity} (ts : List ℚ)
    (h : p.watered = false) : growIter ts p = p := by
  induction ts with
  | nil => rfl
  | cons t ts ih => rw [growIter_cons, growPlant_of_unwatered t h, ih]

lemma growPlant_grown_iff {p : PlantEntity} (now w : ℚ)
    (h1 : p.watered = true) (h2 : p.hasGrown = false)
    (h3 : p.wateringStartTime = some w) :
    ((growPlant now p).hasGrown = true ↔
      PLANT_CONFIG.growthDurationSeconds ≤ (now - w) / 1000) := by
  have hrw : growPlant now p =
      if PLANT_CONFIG.growthDurationSeconds ≤ (now - w) / 1000 then
        { p with hasGrown := true }
      else p := by
    simp [growPlant, h1, h2, h3]
  rw [hrw]
  split_ifs with hle
  · simp [hle]
  · simp [hle, h2]

lemma updateIter_eq_map (ts : List ℚ) (l : List PlantEntity) :
    updateIter ts l = l.map (growIter ts) := by
  induction ts generalizing l with
  | nil =>
    show l = l.map (growIter [])
    induction l with
    | nil => rfl
    | cons p r ihl =>
      show p :: r = growIter [] p :: r.map (growIter [])
      rw [← ihl]
      rfl
  | cons t ts ih =>
    show updateIter ts (updatePlantGrowth t l) = _
    rw [ih, updatePlantGrowth, List.map_map]
    rfl

/-- C1: Growth is strictly watering-gated and timed from the watering event:
iterated `updatePlantGrowth` acts entity-wise; an entity that was never
watered keeps `hasGrown = false` (and stays unwatered) after any number of
update calls; growth never sets the watered flag; and a watered, ungrown
entity with recorded watering start `w` becomes grown at `now` exactly when
`(now - w) / 1000 ≥ growthDurationSeconds`, boundary inclusive. -/
theorem C1_growth_watering_gated (p : PlantEntity) (now w : ℚ) (ts : List ℚ) :
    (∀ l : List PlantEntity, updateIter ts l = l.map (growIter ts))
    ∧ (p.watered = false →
        (growIter ts p).hasGrown = p.hasGrown ∧ (growIter ts p).watered = false)
    ∧ ((growPlant now p).watered = p.watered)
    ∧ (p.watered = true → p.hasGrown = false → p.wateringStartTime = some w →
        ((growPlant now p).hasGrown = true ↔
          PLANT_CONFIG.growthDurationSeconds ≤ (now - w) / 1000)) := by
  refine ⟨fun l => updateIter_eq_map ts l, fun h => ?_,
    growPlant_watered_eq now p, fun h1 h2 h3 => growPlant_grown_iff now w h1 h2 h3⟩
  rw [growIter_of_unwatered ts h]
  exact ⟨rfl, h⟩

/-- A concrete plant watered at time 0 (milliseconds). -/
def examplePlantWatered : PlantEntity :=
  { xPosition := 100, yPosition := 100, plantingTime := 0, watered := true
    wateringStartTime := some 0, hasGrown := false, plantType := PlantType.eye }

/-- A concrete plant never watered. -/
def examplePlantDry : PlantEntity :=
  { xPosition := 100, yPosition := 100, plantingTime := 0, watered := false
    wateringStartTime := none, hasGrown := false, plantType := PlantType.eye }

theorem C1_growth_watering_gated_witness :
    (growPlant 4000 examplePlantWatered).hasGrown = true ∧
    (growPlant 3900 examplePlantWatered).hasGrown = false ∧
    (growIter [1000, 100000, 10000000] examplePlantDry).hasGrown = false := by
  refine ⟨?_, by norm_num [growPlant, examplePlantWatered, PLANT_CONFIG], ?_⟩
  · exact (C1_growth_watering_gated examplePlantWatered 4000 0 []).2.2.2 rfl rfl rfl
      |>.mpr (by norm_num [PLANT_CONFIG])
  · exact ((C1_growth_watering_gated examplePlantDry 0 0
      [1000, 100000, 10000000]).2.1 rfl).1

/-! ## C2: plant placement spacing -/

/-- Two plants satisfy the spacing rule when they are at least the threshold
apart on at least one axis. -/
def spacedPair (a b : PlantEntity) : Prop :=
  ¬(|a.xPosition - b.xPosition| < PLANT_CONFIG.spacingThreshold ∧
    |a.yPosition - b.yPosition| < PLANT_CONFIG.spacingThreshold)

/-- The registry invariant: all pairs of distinct live entities are spaced. -/
def wellSpaced (l : List PlantEntity) : Prop :=
  l.Pairwise spacedPair

/-- The entity freshly created by `plantSeed`. -/
def newPlant (position : ClickPosition) (ty : PlantType) (now : ℚ) : PlantEntity :=
  { xPosition := position.x, yPosition := position.y, plantingTime := now
    watered := false, wateringStartTime := none, hasGrown := false
    plantType := ty }

lemma nearbyPred_eq_true {pos : ClickPosition} {p : PlantEntity} :
    nearbyPred pos p = true ↔
      (|p.xPosition - pos.x| < PLANT_CONFIG.spacingThreshold ∧
       |p.yPosition - pos.y| < PLANT_CONFIG.spacingThreshold) := by
  simp [nearbyPred]

lemma handlePlantingClick_reject {l : List PlantEntity} {pos : ClickPosition}
    (ty : PlantType) (now : ℚ)
    (h : ∃ p ∈ l, |p.xPosition - pos.x| < PLANT_CONFIG.spacingThreshold ∧
      |p.yPosition - pos.y| < PLANT_CONFIG.spacingThreshold) :
    handlePlantingClick l pos ty now = (l, false) := by
  obtain ⟨p, hp, hclose⟩ := h
  unfold handlePlantingClick
  have hne : l.find? (nearbyPred pos) ≠ none := by
    intro hnone
    rw [List.find?_eq_none] at hnone
    exact absurd (nearbyPred_eq_true.mpr hclose) (by simpa using hnone p hp)
  cases hfind : l.find? (nearbyPred pos) with
  | none => exact absurd hfind hne
  | some q => rfl

lemma handlePlantingClick_accept {l : List PlantEntity} {pos : ClickPosition}
    (ty : PlantType) (now : ℚ)
    (h : ∀ p ∈ l, ¬(|p.xPosition - pos.x| < PLANT_CONFIG.spacingThreshold ∧
      |p.yPosition - pos.y| < PLANT_CONFIG.spacingThreshold)) :
    handlePlantingClick l pos ty now = (l ++ [newPlant pos ty now], true) := by
  unfold handlePlantingClick
  have hnone : l.find? (nearbyPred pos) = none := by
    rw [List.find?_eq_none]
    intro p hp ht
    exact h p hp (nearbyPred_eq_true.mp ht)
  rw [hnone]
  rfl

lemma handlePlantingClick_wellSpaced {l : List PlantEntity}
    (pos : ClickPosition) (ty : PlantType) (now : ℚ) (hws : wellSpaced l) :
    wellSpaced (handlePlantingClick l pos ty now).1 := by
  unfold handlePlantingClick
  cases hfind : l.find? (nearbyPred pos) with
  | some q => exact hws
  | none =>
    have hfar : ∀ p ∈ l, nearbyPred pos p = false := by
      intro p hp
      have := List.find?_eq_none.mp hfind p hp
      simpa using this
    show wellSpaced (plantSeed l pos ty now)
    unfold wellSpaced plantSeed
    rw [List.pairwise_append]
    refine ⟨hws, List.pairwise_singleton _ _, ?_⟩
    intro a ha b hb
    simp only [List.mem_singleton] at hb
    subst hb
    intro ⟨hx, hy⟩
    have hct : nearbyPred pos a = true := nearbyPred_eq_true.mpr ⟨hx, hy⟩
    rw [hfar a ha] at hct
    exact Bool.false_ne_true hct

/-- Placement requests replayed from the empty registry. -/
def plantMany (reqs : List (ClickPosition × PlantType × ℚ)) : List PlantEntity :=
  reqs.foldl (fun l r => (handlePlantingClick l r.1 r.2.1 r.2.2).1) []

lemma plantMany_wellSpaced (reqs : List (ClickPosition × PlantType × ℚ)) :
    wellSpaced (plantMany reqs) := by
  suffices h : ∀ l, wellSpaced l →
      wellSpaced (reqs.foldl (fun l r => (handlePlantingClick l r.1 r.2.1 r.2.2).1) l) from
    h [] List.Pairwise.nil
  induction reqs with
  | nil => intro l hl; exact hl
  | cons r rs ih =>
    intro l hl
    exact ih _ (handlePlantingClick_wellSpaced r.1 r.2.1 r.2.2 hl)

/-- C2: `handlePlantingClick` enforces the per-axis spacing rule atomically:
when some existing entity is within the spacing threshold on both axes the
call returns `false` with the registry unchanged; otherwise it appends exactly
one fresh entity (unwatered, ungrown, at the click position) and returns
`true`; consequently the pairwise spacing invariant is preserved, and any
sequence of placements starting from the empty registry satisfies it. -/
theorem C2_spacing_invariant (l : List PlantEntity) (pos : ClickPosition)
    (ty : PlantType) (now : ℚ) :
    ((∃ p ∈ l, |p.xPosition - pos.x| < PLANT_CONFIG.spacingThreshold ∧
        |p.yPosition - pos.y| < PLANT_CONFIG.spacingThreshold) →
      handlePlantingClick l pos ty now = (l, false))
    ∧ ((∀ p ∈ l, ¬(|p.xPosition - pos.x| < PLANT_CONFIG.spacingThreshold ∧
        |p.yPosition - pos.y| < PLANT_CONFIG.spacingThreshold)) →
      handlePlantingClick l pos ty now = (l ++ [newPlant pos ty now], true))
    ∧ ((newPlant pos ty now).watered = false ∧
       (newPlant pos ty now).hasGrown = false ∧
       (newPlant pos ty now).xPosition = pos.x ∧
       (newPlant pos ty now).yPosition = pos.y)
    ∧ (wellSpaced l → wellSpaced (handlePlantingClick l pos ty now).1)
    ∧ (∀ reqs, wellSpaced (plantMany reqs)) :=
  ⟨fun h => handlePlantingClick_reject ty now h,
   fun h => handlePlantingClick_accept ty now h,
   ⟨rfl, rfl, rfl, rfl⟩,
   fun hws => handlePlantingClick_wellSpaced pos ty now hws,
   plantMany_wellSpaced⟩

theorem C2_spacing_invariant_witness :
    handlePlantingClick [newPlant ⟨100, 100⟩ PlantType.eye 0] ⟨110, 110⟩
        PlantType.jaws 5 = ([newPlant ⟨100, 100⟩ PlantType.eye 0], false) ∧
    handlePlantingClick [newPlant ⟨100, 100⟩ PlantType.eye 0] ⟨140, 100⟩
        PlantType.jaws 5 =
      ([newPlant ⟨100, 100⟩ PlantType.eye 0, newPlant ⟨140, 100⟩ PlantType.jaws 5], true) := by
  constructor
  · exact (C2_spacing_invariant [newPlant ⟨100, 100⟩ PlantType.eye 0]
      ⟨110, 110⟩ PlantType.jaws 5).1
      ⟨newPlant ⟨100, 100⟩ PlantType.eye 0, by simp, by norm_num [newPlant, PLANT_CONFIG]⟩
  · exact (C2_spacing_invariant [newPlant ⟨100, 100⟩ PlantType.eye 0]
      ⟨140, 100⟩ PlantType.jaws 5).2.1
      (by intro p hp
          simp only [List.mem_singleton] at hp
          subst hp
          norm_num [newPlant, PLANT_CONFIG])

/-! ## C9: watering idempotence -/

lemma waterAtTile_noop {l : List PlantEntity} {tileX tileY : ℤ}
    {tileSize now : ℚ}
    (h : ∀ p ∈ l, (p.hasGrown = false ∧ ⌊p.xPosition / tileSize⌋ = tileX ∧
      ⌊p.yPosition / tileSize⌋ = tileY) → p.watered = true) :
    waterAtTile l tileX tileY tileSize now = (l, false) := by
  induction l with
  | nil => rfl
  | cons p rest ih =>
    show (if p.hasGrown = false ∧ ⌊p.xPosition / tileSize⌋ = tileX ∧
        ⌊p.yPosition / tileSize⌋ = tileY then _ else _) = _
    split_ifs with h1 h2
    · rfl
    · exact absurd (h p (List.mem_cons_self _ _) h1) (by simpa using h2)
    · rw [ih (fun q hq hcond => h q (List.mem_cons_of_mem _ hq) hcond)]

lemma waterAllUnwatered_idem (l : List PlantEntity) (t t' : ℚ) :
    waterAllUnwatered (waterAllUnwatered l t).1 t' = ((waterAllUnwatered l t).1, 0) := by
  induction l with
  | nil => rfl
  | cons p rest ih =>
    by_cases hg : p.hasGrown <;> by_cases hw : p.watered <;>
      simp [waterAllUnwatered, hg, hw, ih]

/-- C9: Watering is idempotent.  `waterAtTile` is a no-op returning `false`
when every not-grown plant at the target tile is already watered (in
particular when the only plant there is already watered, or when only a grown
plant occupies the tile); and a second `waterAllUnwatered` immediately after a
first one waters 0 entities and returns the plant list unchanged. -/
theorem C9_watering_idempotent (l : List PlantEntity) (tileX tileY : ℤ)
    (tileSize now t t' : ℚ) :
    ((∀ p ∈ l, (p.hasGrown = false ∧ ⌊p.xPosition / tileSize⌋ = tileX ∧
        ⌊p.yPosition / tileSize⌋ = tileY) → p.watered = true) →
      waterAtTile l tileX tileY tileSize now = (l, false))
    ∧ waterAllUnwatered (waterAllUnwatered l t).1 t' =
        ((waterAllUnwatered l t).1, 0) :=
  ⟨fun h => waterAtTile_noop h, waterAllUnwatered_idem l t t'⟩

theorem C9_watering_idempotent_witness :
    waterAtTile [examplePlantWatered] 3 3 32 5000 = ([examplePlantWatered], false) ∧
    waterAllUnwatered (waterAllUnwatered [examplePlantDry] 0).1 99 =
      ((waterAllUnwatered [examplePlantDry] 0).1, 0) := by
  refine ⟨(C9_watering_idempotent [examplePlantWatered] 3 3 32 5000 0 0).1 ?_,
    (C9_watering_idempotent [examplePlantDry] 3 3 32 0 0 99).2⟩
  intro p hp _
  simp only [List.mem_singleton] at hp
  subst hp
  rfl

/-! ## C10: one watering action waters at most one plant -/

lemma waterAtTile_cons (p : PlantEntity) (rest : List PlantEntity)
    (tileX tileY : ℤ) (tileSize now : ℚ) :
    waterAtTile (p :: rest) tileX tileY tileSize now =
      if p.hasGrown = false ∧ ⌊p.xPosition / tileSize⌋ = tileX ∧
          ⌊p.yPosition / tileSize⌋ = tileY then
        if p.watered then (p :: rest, false)
        else ({ p with watered := true, wateringStartTime := some now } :: rest, true)
      else
        (p :: (waterAtTile rest tileX tileY tileSize now).1,
         (waterAtTile rest tileX tileY tileSize now).2) := rfl

lemma tryCandidates_cons (l : List PlantEntity) (c : ℤ × ℤ)
    (cs : List (ℤ × ℤ)) (tile now : ℚ) :
    tryCandidates l (c :: cs) tile now =
      if (waterAtTile l c.1 c.2 tile now).2 then
        ((waterAtTile l c.1 c.2 tile now).1, true)
      else tryCandidates (waterAtTile l c.1 c.2 tile now).1 cs tile now := rfl

/-- `waterAtTile` either leaves the list unchanged (returning `false`) or
waters exactly the single plant at one index. -/
lemma waterAtTile_shape (l : List PlantEntity) (tileX tileY : ℤ)
    (tileSize now : ℚ) :
    waterAtTile l tileX tileY tileSize now = (l, false) ∨
    ∃ k p, l.get? k = some p ∧ p.hasGrown = false ∧ p.watered = false ∧
      waterAtTile l tileX tileY tileSize now =
        (l.set k { p with watered := true, wateringStartTime := some now }, true) := by
  induction l with
  | nil => exact Or.inl rfl
  | cons p rest ih =>
    rw [waterAtTile_cons]
    split_ifs with h1 h2
    · exact Or.inl rfl
    · exact Or.inr ⟨0, p, rfl, h1.1, by simpa using h2, rfl⟩
    · rcases ih with heq | ⟨k, q, hget, hg, hw, heq⟩
      · rw [heq]
        exact Or.inl rfl
      · rw [heq]
        exact Or.inr ⟨k + 1, q, by simpa using hget, hg, hw, rfl⟩

lemma tryCandidates_shape (l : List PlantEntity) (cs : List (ℤ × ℤ))
    (tile now : ℚ) :
    tryCandidates l cs tile now = (l, false) ∨
    ∃ k p, l.get? k = some p ∧ p.hasGrown = false ∧ p.watered = false ∧
      tryCandidates l cs tile now =
        (l.set k { p with watered := true, wateringStartTime := some now }, true) := by
  induction cs with
  | nil => exact Or.inl rfl
  | cons c cs ih =>
    rcases waterAtTile_shape l c.1 c.2 tile now with heq | ⟨k, q, hget, hg, hw, heq⟩
    · have hred : tryCandidates l (c :: cs) tile now = tryCandidates l cs tile now := by
        rw [tryCandidates_cons, heq]
        rfl
      rw [hred]
      exact ih
    · have hred : tryCandidates l (c :: cs) tile now =
          (l.set k { q with watered := true, wateringStartTime := some now }, true) := by
        rw [tryCandidates_cons, heq]
        rfl
      exact Or.inr ⟨k, q, hget, hg, hw, hred⟩

lemma scanBest_spec (pos : ℚ × ℚ) (maxD : ℚ) (lfull : List PlantEntity) :
    ∀ (l : List PlantEntity) (i : ℕ) (best : Option (ℕ × ℚ)),
    (∀ j p, l.get? j = some p → lfull.get? (i + j) = some p) →
    (∀ k d, best = some (k, d) →
      ∃ p, lfull.get? k = some p ∧ p.hasGrown = false ∧ p.watered = false) →
    ∀ k d, scanBest pos maxD l i best = some (k, d) →
      ∃ p, lfull.get? k = some p ∧ p.hasGrown = false ∧ p.watered = false := by
  intro l
  induction l with
  | nil => intro i best _ hbest k d hscan; exact hbest k d hscan
  | cons p rest ih =>
    intro i best hsub hbest k d hscan
    have hsub1 : ∀ j q, rest.get? j = some q → lfull.get? (i + 1 + j) = some q := by
      intro j q hj
      have := hsub (j + 1) q (by simpa using hj)
      simpa [Nat.add_assoc, Nat.add_comm 1 j] using this
    have hp : lfull.get? i = some p := by simpa using hsub 0 p rfl
    by_cases hg : p.hasGrown
    · exact ih (i + 1) best hsub1 hbest k d (by simpa [scanBest, hg] using hscan)
    · by_cases hw : p.watered
      · exact ih (i + 1) best hsub1 hbest k d (by simpa [scanBest, hg, hw] using hscan)
      · rcases best with _ | ⟨bi, bd⟩
        · by_cases hd : (p.xPosition - pos.1) * (p.xPosition - pos.1) +
              (p.yPosition - pos.2) * (p.yPosition - pos.2) ≤ maxD * maxD
          · refine ih (i + 1) _ hsub1 ?_ k d
              (by simpa [scanBest, hg, hw, hd] using hscan)
            intro k' d' hk'
            obtain ⟨hk1, _⟩ := Prod.mk.injEq .. ▸ Option.some.injEq _ _ |>.mp hk'
            exact hk1 ▸ ⟨p, hp, by simpa using hg, by simpa using hw⟩
          · exact ih (i + 1) none hsub1 (by intro k' d' h; cases h) k d
              (by simpa [scanBest, hg, hw, hd] using hscan)
        · by_cases hd : ((p.xPosition - pos.1) * (p.xPosition - pos.1) +
              (p.yPosition - pos.2) * (p.yPosition - pos.2) ≤ maxD * maxD) ∧
              ((p.xPosition - pos.1) * (p.xPosition - pos.1) +
              (p.yPosition - pos.2) * (p.yPosition - pos.2) < bd)
          · refine ih (i + 1) _ hsub1 ?_ k d
              (by simpa [scanBest, hg, hw, hd] using hscan)
            intro k' d' hk'
            obtain ⟨hk1, _⟩ := Prod.mk.injEq .. ▸ Option.some.injEq _ _ |>.mp hk'
            exact hk1 ▸ ⟨p, hp, by simpa using hg, by simpa using hw⟩
          · exact ih (i + 1) (some (bi, bd)) hsub1 hbest k d
              (by simpa [scanBest, hg, hw, hd] using hscan)

lemma waterNearest_shape (l : List PlantEntity) (pos : ℚ × ℚ)
    (maxD now : ℚ) :
    waterNearest l pos maxD now = (l, false) ∨
    ∃ k p, l.get? k = some p ∧ p.hasGrown = false ∧ p.watered = false ∧
      waterNearest l pos maxD now =
        (l.set k { p with watered := true, wateringStartTime := some now }, true) := by
  cases hscan : scanBest pos maxD l 0 none with
  | none =>
    left
    unfold waterNearest
    rw [hscan]
  | some kd =>
    obtain ⟨k, d⟩ := kd
    obtain ⟨p, hget, hg, hw⟩ := scanBest_spec pos maxD l l 0 none
      (by intro j p hj; simpa using hj) (by intro k' d' h; cases h) k d hscan
    right
    refine ⟨k, p, hget, hg, hw, ?_⟩
    unfold waterNearest
    simp only [hscan, hget]

/-- C10: one edge-triggered watering action waters at most one plant: the
resulting plant list is either unchanged or updates exactly one previously
unwatered, ungrown entity; and with an empty water inventory the plant state
(and the water) is untouched. -/
theorem C10_single_watering (water : ℤ) (plants : List PlantEntity)
    (feetX feetY : ℚ) (facing : Direction) (now : ℚ) :
    (water < 1 → handleWatering water plants feetX feetY facing now =
      (plants, water, false))
    ∧ ((handleWatering water plants feetX feetY facing now).1 = plants ∨
       ∃ k p, plants.get? k = some p ∧ p.hasGrown = false ∧ p.watered = false ∧
         (handleWatering water plants feetX feetY facing now).1 =
           plants.set k { p with watered := true, wateringStartTime := some now }) := by
  constructor
  · intro h
    unfold handleWatering
    rw [if_pos h]
  · by_cases h : water < 1
    · left
      unfold handleWatering
      rw [if_pos h]
    · rcases tryCandidates_shape plants (wateringCandidates feetX feetY facing)
          TILE_CONFIG.tileSize now with heq | ⟨k, q, hget, hg, hw, heq⟩
      · have hred : handleWatering water plants feetX feetY facing now =
            ((waterNearest plants (feetX, feetY)
              (TILE_CONFIG.tileSize * (95/100)) now).1, water - 1, false) := by
          unfold handleWatering
          rw [if_neg h, heq]
          rfl
        rw [hred]
        rcases waterNearest_shape plants (feetX, feetY)
            (TILE_CONFIG.tileSize * (95/100)) now with heq2 | ⟨k, q, hget, hg, hw, heq2⟩
        · rw [heq2]
          exact Or.inl rfl
        · rw [heq2]
          exact Or.inr ⟨k, q, hget, hg, hw, rfl⟩
      · have hred : handleWatering water plants feetX feetY facing now =
            (plants.set k { q with watered := true, wateringStartTime := some now },
              water - 1, true) := by
          unfold handleWatering
          rw [if_neg h, heq]
          rfl
        rw [hred]
        exact Or.inr ⟨k, q, hget, hg, hw, rfl⟩

theorem C10_single_watering_witness :
    handleWatering 0 [examplePlantDry] 100 100 Direction.down 5 =
      ([examplePlantDry], 0, false) :=
  (C10_single_watering 0 [examplePlantDry] 100 100 Direction.down 5).1 (by norm_num)

/-! ## C5: day rollover truncates -/

/-- C5: `updateTime` truncates on rollover: when the advanced
`secondsIntoDay` reaches the day duration the day increments by exactly 1,
`secondsIntoDay` is set to 0 (the remainder is discarded, however large the
delta), and the season is recomputed as `floor((day - 1) / 10) mod 4`;
otherwise day and season are untouched and `secondsIntoDay` advances by the
delta. -/
theorem C5_day_rollover_truncates (s : TimeState) (delta : ℚ) :
    (s.dayDurationSeconds ≤ s.secondsIntoDay + delta →
      (updateTime s delta).day = s.day + 1 ∧
      (updateTime s delta).secondsIntoDay = 0 ∧
      (updateTime s delta).seasonIndex = (⌊((s.day + 1 - 1 : ℤ) : ℚ) / 10⌋) % 4)
    ∧ (s.secondsIntoDay + delta < s.dayDurationSeconds →
      (updateTime s delta).day = s.day ∧
      (updateTime s delta).seasonIndex = s.seasonIndex ∧
      (updateTime s delta).secondsIntoDay = s.secondsIntoDay + delta) := by
  constructor
  · intro h
    have hc : (({ s with secondsIntoDay := s.secondsIntoDay + delta } :
        TimeState)).dayDurationSeconds ≤
        ({ s with secondsIntoDay := s.secondsIntoDay + delta } :
        TimeState).secondsIntoDay := h
    unfold updateTime
    rw [if_pos hc]
    exact ⟨rfl, rfl, rfl⟩
  · intro h
    have hc : ¬(({ s with secondsIntoDay := s.secondsIntoDay + delta } :
        TimeState)).dayDurationSeconds ≤
        ({ s with secondsIntoDay := s.secondsIntoDay + delta } :
        TimeState).secondsIntoDay := not_le.mpr h
    unfold updateTime
    rw [if_neg hc]
    exact ⟨rfl, rfl, rfl⟩

/-- The state of the rollover scenario from the spec: day 3, 39.9 s into a
40-second day. -/
def exampleTimeState : TimeState :=
  { day := 3, secondsIntoDay := 399/10, dayDurationSeconds := 40
    seasonIndex := 0, weather := Weather.clear }

theorem C5_day_rollover_truncates_witness :
    (updateTime exampleTimeState (2/10)).day = 4 ∧
    (updateTime exampleTimeState (2/10)).secondsIntoDay = 0 ∧
    (updateTime exampleTimeState (2/10)).seasonIndex = 0 := by
  have h := (C5_day_rollover_truncates exampleTimeState (2/10)).1
    (by norm_num [exampleTimeState])
  refine ⟨h.1.trans (by norm_num [exampleTimeState]), h.2.1, h.2.2.trans ?_⟩
  norm_num [exampleTimeState]

/-! ## C7: interaction resolution -/

lemma findAdjacentArea_cons (ftX ftY : ℤ) (a : InteractionArea)
    (rest : List InteractionArea) :
    findAdjacentArea ftX ftY (a :: rest) =
      if adjacentArea ftX ftY a then some a else findAdjacentArea ftX ftY rest := rfl

lemma findAdjacentArea_eq_some_iff (ftX ftY : ℤ) (l : List InteractionArea)
    (z : InteractionArea) :
    findAdjacentArea ftX ftY l = some z ↔
      ∃ l₁ l₂, l = l₁ ++ z :: l₂ ∧ adjacentArea ftX ftY z ∧
        ∀ y ∈ l₁, ¬ adjacentArea ftX ftY y := by
  induction l with
  | nil =>
    constructor
    · intro h
      cases h
    · rintro ⟨l₁, l₂, heq, -, -⟩
      cases l₁ <;> simp at heq
  | cons a rest ih =>
    by_cases ha : adjacentArea ftX ftY a
    · rw [findAdjacentArea_cons, if_pos ha]
      constructor
      · intro h
        obtain rfl : a = z := by simpa using h
        exact ⟨[], rest, rfl, ha, by simp⟩
      · rintro ⟨l₁, l₂, heq, hz, hall⟩
        cases l₁ with
        | nil =>
          simp only [List.nil_append, List.cons.injEq] at heq
          rw [heq.1]
        | cons b l₁ =>
          simp only [List.cons_append, List.cons.injEq] at heq
          exact absurd (heq.1 ▸ ha) (hall b (List.mem_cons_self _ _))
    · rw [findAdjacentArea_cons, if_neg ha, ih]
      constructor
      · rintro ⟨l₁, l₂, heq, hz, hall⟩
        refine ⟨a :: l₁, l₂, by rw [heq]; rfl, hz, ?_⟩
        intro y hy
        rcases List.mem_cons.mp hy with rfl | hy
        · exact ha
        · exact hall y hy
      · rintro ⟨l₁, l₂, heq, hz, hall⟩
        cases l₁ with
        | nil =>
          simp only [List.nil_append, List.cons.injEq] at heq
          exact absurd (heq.1 ▸ hz) ha
        | cons b l₁ =>
          simp only [List.cons_append, List.cons.injEq] at heq
          exact ⟨l₁, l₂, heq.2, hz, fun y hy => hall y (List.mem_cons_of_mem _ hy)⟩

lemma findAdjacentArea_eq_none_iff (ftX ftY : ℤ) (l : List InteractionArea) :
    findAdjacentArea ftX ftY l = none ↔ ∀ y ∈ l, ¬ adjacentArea ftX ftY y := by
  induction l with
  | nil => simp [findAdjacentArea]
  | cons a rest ih =>
    by_cases ha : adjacentArea ftX ftY a
    · rw [findAdjacentArea_cons, if_pos ha]
      simp [ha]
    · rw [findAdjacentArea_cons, if_neg ha]
      simp [ih, ha]

lemma adjacentArea_cases (ftX ftY : ℤ) (z : InteractionArea) :
    adjacentArea ftX ftY z ↔
      ((ftX = ⌊z.x / TILE_CONFIG.tileSize⌋ ∧ ftY = ⌊z.y / TILE_CONFIG.tileSize⌋) ∨
       (|ftX - ⌊z.x / TILE_CONFIG.tileSize⌋| = 1 ∧ ftY = ⌊z.y / TILE_CONFIG.tileSize⌋) ∨
       (ftX = ⌊z.x / TILE_CONFIG.tileSize⌋ ∧ |ftY - ⌊z.y / TILE_CONFIG.tileSize⌋| = 1)) := by
  unfold adjacentArea
  rcases Int.abs_eq_natAbs (ftX - ⌊z.x / TILE_CONFIG.tileSize⌋) with h1
  rcases Int.abs_eq_natAbs (ftY - ⌊z.y / TILE_CONFIG.tileSize⌋) with h2
  rw [h1, h2]
  omega

/-- C7: interaction resolution returns the first adjacent zone in list order:
the resolver maps the feet position to its tile and returns (the kind of) the
first zone whose tile-Manhattan distance from that tile is at most 1; it
returns `none` exactly when no zone is adjacent; and the adjacency test holds
exactly for the same tile or a 4-orthogonal neighbor (never a diagonal
neighbor, whose Manhattan distance is 2). -/
theorem C7_first_adjacent_interaction (feetX feetY : ℚ) (ftX ftY : ℤ)
    (l : List InteractionArea) (z : InteractionArea) :
    (getFeetAdjacentInteraction feetX feetY l =
      (findAdjacentArea ⌊feetX / TILE_CONFIG.tileSize⌋
        ⌊feetY / TILE_CONFIG.tileSize⌋ l).map (fun a => a.kind))
    ∧ (findAdjacentArea ftX ftY l = some z ↔
        ∃ l₁ l₂, l = l₁ ++ z :: l₂ ∧ adjacentArea ftX ftY z ∧
          ∀ y ∈ l₁, ¬ adjacentArea ftX ftY y)
    ∧ (findAdjacentArea ftX ftY l = none ↔ ∀ y ∈ l, ¬ adjacentArea ftX ftY y)
    ∧ (adjacentArea ftX ftY z ↔
        ((ftX = ⌊z.x / TILE_CONFIG.tileSize⌋ ∧ ftY = ⌊z.y / TILE_CONFIG.tileSize⌋) ∨
         (|ftX - ⌊z.x / TILE_CONFIG.tileSize⌋| = 1 ∧ ftY = ⌊z.y / TILE_CONFIG.tileSize⌋) ∨
         (ftX = ⌊z.x / TILE_CONFIG.tileSize⌋ ∧ |ftY - ⌊z.y / TILE_CONFIG.tileSize⌋| = 1))) :=
  ⟨rfl, findAdjacentArea_eq_some_iff ftX ftY l z,
   findAdjacentArea_eq_none_iff ftX ftY l,
   adjacentArea_cases ftX ftY z⟩

/-- A zone diagonally adjacent to tile (2, 1): tile (3, 2). -/
def zoneDiag : InteractionArea := { x := 96, y := 64, kind := InteractionKind.well }

/-- A zone on tile (2, 1) itself. -/
def zoneSame : InteractionArea := { x := 64, y := 32, kind := InteractionKind.bed }

theorem C7_first_adjacent_interaction_witness :
    findAdjacentArea 2 1 [zoneDiag, zoneSame] = some zoneSame := by
  refine (C7_first_adjacent_interaction 64 32 2 1 [zoneDiag, zoneSame] zoneSame).2.1.mpr
    ⟨[zoneDiag], [], rfl, ?_, ?_⟩
  · norm_num [adjacentArea, zoneSame, TILE_CONFIG]
  · intro y hy
    simp only [List.mem_singleton] at hy
    subst hy
    norm_num [adjacentArea, zoneDiag, TILE_CONFIG]

/-! ## C8: fade transition midpoint -/

lemma fadeUpdate_inactive {s : FadeTransitionState} (t : ℚ)
    (h : s.active = false) : fadeUpdate s t = (s, false) := by
  unfold fadeUpdate
  rw [if_neg (by simp [h])]

lemma fadeUpdate_before {t₀ d t : ℚ} (hd : 0 ≤ d) (ht : t - t₀ < d / 2) :
    fadeUpdate (startFadeTransition t₀ d) t = (startFadeTransition t₀ d, false) := by
  have hfire : ¬(d / 2 ≤ t - t₀) := not_le.mpr ht
  have hend : ¬(d ≤ t - t₀) := by
    intro hc
    have := half_le_self hd
    linarith
  simp [fadeUpdate, startFadeTransition, hfire, hend]

lemma fadeUpdate_at {t₀ d t : ℚ} (ht : d / 2 ≤ t - t₀) :
    (fadeUpdate (startFadeTransition t₀ d) t).2 = true ∧
    (fadeUpdate (startFadeTransition t₀ d) t).1.midPointFired = true := by
  by_cases hend : d ≤ t - t₀ <;>
    simp [fadeUpdate, startFadeTransition, ht, hend]

lemma fadeUpdate_fired {s : FadeTransitionState} (t : ℚ)
    (h : s.midPointFired = true) :
    (fadeUpdate s t).2 = false ∧ (fadeUpdate s t).1.midPointFired = true := by
  by_cases ha : s.active = true <;>
    by_cases hend : s.duration ≤ t - s.startTime <;>
      simp [fadeUpdate, h, ha, hend]

lemma fadeRun_fired (ts : List ℚ) {s : FadeTransitionState}
    (h : s.midPointFired = true) :
    (fadeRun s ts).2 = ts.map (fun _ => false) := by
  induction ts generalizing s with
  | nil => rfl
  | cons t ts ih =>
    show ((fadeRun (fadeUpdate s t).1 ts).1,
      (fadeUpdate s t).2 :: (fadeRun (fadeUpdate s t).1 ts).2).2 = _
    rw [show ((fadeRun (fadeUpdate s t).1 ts).1,
        (fadeUpdate s t).2 :: (fadeRun (fadeUpdate s t).1 ts).2).2 =
        (fadeUpdate s t).2 :: (fadeRun (fadeUpdate s t).1 ts).2 from rfl,
      (fadeUpdate_fired t h).1, ih (fadeUpdate_fired t h).2]
    rfl

lemma fadeRun_flags {t₀ d : ℚ} (hd : 0 ≤ d) (l₁ l₂ : List ℚ) (t : ℚ)
    (h₁ : ∀ u ∈ l₁, u - t₀ < d / 2) (h₂ : d / 2 ≤ t - t₀) :
    (fadeRun (startFadeTransition t₀ d) (l₁ ++ t :: l₂)).2 =
      l₁.map (fun _ => false) ++ true :: l₂.map (fun _ => false) := by
  induction l₁ with
  | nil =>
    show (fadeUpdate (startFadeTransition t₀ d) t).2 ::
      (fadeRun (fadeUpdate (startFadeTransition t₀ d) t).1 l₂).2 = _
    rw [(fadeUpdate_at h₂).1, fadeRun_fired l₂ (fadeUpdate_at h₂).2]
    rfl
  | cons u l₁ ih =>
    show (fadeUpdate (startFadeTransition t₀ d) u).2 ::
      (fadeRun (fadeUpdate (startFadeTransition t₀ d) u).1 (l₁ ++ t :: l₂)).2 = _
    rw [fadeUpdate_before hd (h₁ u (List.mem_cons_self _ _))]
    show false :: (fadeRun (startFadeTransition t₀ d) (l₁ ++ t :: l₂)).2 = _
    rw [ih (fun v hv => h₁ v (List.mem_cons_of_mem _ hv))]
    rfl

lemma fadeUpdate_param_eq (s : FadeTransitionState) (t : ℚ) :
    (fadeUpdate s t).1.startTime = s.startTime ∧
    (fadeUpdate s t).1.duration = s.duration := by
  by_cases ha : s.active = true <;>
    by_cases hf : (s.midPointFired = false ∧ s.duration / 2 ≤ t - s.startTime) <;>
      by_cases he : s.duration ≤ t - s.startTime <;>
        simp [fadeUpdate, ha, hf, he]

lemma fadeUpdate_deactivated {s : FadeTransitionState} {t : ℚ}
    (h : s.duration ≤ t - s.startTime) : (fadeUpdate s t).1.active = false := by
  by_cases ha : s.active = true
  · by_cases hf : (s.midPointFired = false ∧ s.duration / 2 ≤ t - s.startTime) <;>
      simp [fadeUpdate, ha, hf, h]
  · simp only [fadeUpdate, if_neg ha]
    simpa using ha

lemma fadeRun_params (ts : List ℚ) (s : FadeTransitionState) :
    (fadeRun s ts).1.startTime = s.startTime ∧
    (fadeRun s ts).1.duration = s.duration := by
  induction ts generalizing s with
  | nil => exact ⟨rfl, rfl⟩
  | cons t ts ih =>
    refine ⟨?_, ?_⟩
    · show (fadeRun (fadeUpdate s t).1 ts).1.startTime = _
      rw [(ih (fadeUpdate s t).1).1, (fadeUpdate_param_eq s t).1]
    · show (fadeRun (fadeUpdate s t).1 ts).1.duration = _
      rw [(ih (fadeUpdate s t).1).2, (fadeUpdate_param_eq s t).2]

lemma fadeRun_append_single (l : List ℚ) (u : ℚ) (s : FadeTransitionState) :
    (fadeRun s (l ++ [u])).1 = (fadeUpdate (fadeRun s l).1 u).1 := by
  induction l generalizing s with
  | nil => rfl
  | cons t l ih =>
    show (fadeRun (fadeUpdate s t).1 (l ++ [u])).1 = _
    rw [ih (fadeUpdate s t).1]
    rfl

lemma fadeRun_deactivates {t₀ d : ℚ} (l : List ℚ) (u : ℚ)
    (hu : d ≤ u - t₀) :
    (fadeRun (startFadeTransition t₀ d) (l ++ [u])).1.active = false := by
  rw [fadeRun_append_single]
  apply fadeUpdate_deactivated
  rw [(fadeRun_params l (startFadeTransition t₀ d)).1,
    (fadeRun_params l (startFadeTransition t₀ d)).2]
  exact hu

lemma map_false_count (l : List ℚ) :
    (l.map (fun _ => false)).count true = 0 := by
  induction l with
  | nil => rfl
  | cons t l ih => simpa using ih

/-- C8: the fade-transition midpoint callback fires exactly once: over any
frame sequence whose prefix stays strictly before the midpoint and which then
reaches elapsed time ≥ duration/2, the per-frame fired flags are `false`
everywhere except at that first qualifying frame (so the callback count is
exactly 1 no matter how many frames run), and the transition deactivates at
any frame whose elapsed time reaches the full duration. -/
theorem C8_midpoint_fires_once (t₀ d : ℚ) (l₁ l₂ : List ℚ) (t : ℚ)
    (hd : 0 ≤ d) (h₁ : ∀ u ∈ l₁, u - t₀ < d / 2) (h₂ : d / 2 ≤ t - t₀) :
    (fadeRun (startFadeTransition t₀ d) (l₁ ++ t :: l₂)).2 =
      l₁.map (fun _ => false) ++ true :: l₂.map (fun _ => false)
    ∧ (fadeRun (startFadeTransition t₀ d) (l₁ ++ t :: l₂)).2.count true = 1
    ∧ (∀ (l : List ℚ) (u : ℚ), d ≤ u - t₀ →
        (fadeRun (startFadeTransition t₀ d) (l ++ [u])).1.active = false) := by
  refine ⟨fadeRun_flags hd l₁ l₂ t h₁ h₂, ?_, fun l u hu => fadeRun_deactivates l u hu⟩
  rw [fadeRun_flags hd l₁ l₂ t h₁ h₂, List.count_append, map_false_count]
  simp [map_false_count, List.count_replicate]

theorem C8_midpoint_fires_once_witness :
    (fadeRun (startFadeTransition 0 600) [100, 200, 300, 400, 700]).2 =
      [false, false, true, false, false]
    ∧ (fadeRun (startFadeTransition 0 600) [100, 200, 300, 400, 700]).2.count true = 1
    ∧ (fadeRun (startFadeTransition 0 600) [100, 200, 300, 400, 700]).1.active = false := by
  have h := C8_midpoint_fires_once 0 600 [100, 200] [400, 700] 300
    (by norm_num)
    (by intro u hu
        simp only [List.mem_cons, List.not_mem_nil, or_false] at hu
        rcases hu with rfl | rfl <;> norm_num)
    (by norm_num)
  refine ⟨h.1, h.2.1, ?_⟩
  have h3 := h.2.2 [100, 200, 300, 400] 700 (by norm_num)
  exact h3

/-! ## C3 / C4: stamina recompute and once-per-day penalty -/

/-- The stamina value computed by `updateStaminaDepletion`, as a function of
the maximum, the last sleep anchor and the clock state. -/
def staminaComputed (M lst : ℚ) (ts : TimeState) : ℚ :=
  max 0 (min M (max 0 (M - (continuousTotalHours ts - lst) * (100 / 17))))

lemma updateStaminaDepletion_current (st : StaminaState) (ts : TimeState) :
    (updateStaminaDepletion st ts).current =
      staminaComputed st.maximum st.lastSleepTime ts := rfl

lemma resetDailyFlags_proj (st : StaminaState) (c : GameTime) :
    (resetDailyFlags st c).current = st.current ∧
    (resetDailyFlags st c).maximum = st.maximum ∧
    (resetDailyFlags st c).lastSleepTime = st.lastSleepTime ∧
    (resetDailyFlags st c).lastPenaltyDay = st.lastPenaltyDay := by
  unfold resetDailyFlags
  split_ifs <;> exact ⟨rfl, rfl, rfl, rfl⟩

lemma checkSleepReminder_proj (st : StaminaState) (c : GameTime) :
    ((checkSleepReminder st c).1.current = st.current ∧
     (checkSleepReminder st c).1.maximum = st.maximum ∧
     (checkSleepReminder st c).1.lastSleepTime = st.lastSleepTime ∧
     (checkSleepReminder st c).1.lastPenaltyDay = st.lastPenaltyDay) := by
  unfold checkSleepReminder
  split_ifs <;> exact ⟨rfl, rfl, rfl, rfl⟩

/-- The stamina state after the first three steps of `update` (flag reset,
depletion recompute, sleep reminder). -/
def staminaStep3 (st : StaminaState) (ts : TimeState) : StaminaState :=
  (checkSleepReminder
    (updateStaminaDepletion (resetDailyFlags st (getCurrentGameTime ts)) ts)
    (getCurrentGameTime ts)).1

lemma staminaUpdate_eq (st : StaminaState) (ts : TimeState) :
    staminaUpdate st ts = checkAutoSleep (staminaStep3 st ts) ts := rfl

lemma staminaStep3_proj (st : StaminaState) (ts : TimeState) :
    (staminaStep3 st ts).current = staminaComputed st.maximum st.lastSleepTime ts ∧
    (staminaStep3 st ts).maximum = st.maximum ∧
    (staminaStep3 st ts).lastSleepTime = st.lastSleepTime ∧
    (staminaStep3 st ts).lastPenaltyDay = st.lastPenaltyDay := by
  unfold staminaStep3
  obtain ⟨r1, r2, r3, r4⟩ :=
    resetDailyFlags_proj st (getCurrentGameTime ts)
  obtain ⟨c1, c2, c3, c4⟩ := checkSleepReminder_proj
    (updateStaminaDepletion (resetDailyFlags st (getCurrentGameTime ts)) ts)
    (getCurrentGameTime ts)
  refine ⟨?_, ?_, ?_, ?_⟩
  · rw [c1, updateStaminaDepletion_current, r2, r3]
  · rw [c2]
    exact r2
  · rw [c3]
    exact r3
  · rw [c4]
    exact r4

lemma checkAutoSleep_no_fire {st : StaminaState} {ts : TimeState}
    (h : ¬(st.current ≤ 0 ∧ st.lastPenaltyDay < (getCurrentGameTime ts).day)) :
    checkAutoSleep st ts = (st, ts, 0) := by
  unfold checkAutoSleep
  rw [if_neg h]

lemma checkAutoSleep_fire {st : StaminaState} {ts : TimeState}
    (h : st.current ≤ 0 ∧ st.lastPenaltyDay < (getCurrentGameTime ts).day) :
    checkAutoSleep st ts =
      ((autoSleep { st with lastPenaltyDay := (getCurrentGameTime ts).day } ts).1,
       (autoSleep { st with lastPenaltyDay := (getCurrentGameTime ts).day } ts).2, 1) := by
  unfold checkAutoSleep
  rw [if_pos h]

lemma autoSleep_proj (st : StaminaState) (ts : TimeState) :
    (autoSleep st ts).1.current = st.maximum ∧
    (autoSleep st ts).1.maximum = st.maximum ∧
    (autoSleep st ts).1.lastSleepTime = continuousTotalHours (autoSleep st ts).2 ∧
    (autoSleep st ts).2.secondsIntoDay = (7 / 24) * ts.dayDurationSeconds ∧
    (autoSleep st ts).2.dayDurationSeconds = ts.dayDurationSeconds :=
  ⟨rfl, rfl, rfl, rfl, rfl⟩

lemma staminaComputed_rested (ts : TimeState) :
    staminaComputed 100 (continuousTotalHours ts) ts = 100 := by
  unfold staminaComputed
  norm_num

lemma staminaIter_succ (n : ℕ) (st : StaminaState) (ts : TimeState) :
    (staminaIter (n + 1) st ts).2.2 =
      (staminaUpdate st ts).2.2 +
        (staminaIter n (staminaUpdate st ts).1 (staminaUpdate st ts).2.1).2.2 := rfl

lemma staminaIter_no_penalty (n : ℕ) :
    ∀ (st : StaminaState) (ts : TimeState), st.maximum = 100 →
    st.lastSleepTime = continuousTotalHours ts →
    (staminaIter n st ts).2.2 = 0 := by
  induction n with
  | zero => intro st ts _ _; rfl
  | succ n ih =>
    intro st ts hmax hls
    have hcur : (staminaStep3 st ts).current = 100 := by
      rw [(staminaStep3_proj st ts).1, hmax, hls, staminaComputed_rested]
    have hnof : ¬((staminaStep3 st ts).current ≤ 0 ∧
        (staminaStep3 st ts).lastPenaltyDay < (getCurrentGameTime ts).day) := by
      intro hc
      rw [hcur] at hc
      norm_num at hc
    have hupd : staminaUpdate st ts = (staminaStep3 st ts, ts, 0) := by
      rw [staminaUpdate_eq, checkAutoSleep_no_fire hnof]
    rw [staminaIter_succ, hupd]
    have := ih (staminaStep3 st ts) ts
      (by rw [(staminaStep3_proj st ts).2.1]; exact hmax)
      (by rw [(staminaStep3_proj st ts).2.2.1]; rw [hls])
    simpa using this

/-- C3: stamina is recomputed, not accumulated: with the engine's
configuration (`maximum = 100`, so the hard-coded hourly rate `100 / 17`
equals `maximum / 17`), every depletion step sets `current` to
`max(0, maximum - hoursAwake * (maximum / 17))` clamped above by `maximum`;
with 8.5 hours awake the result is exactly 50; and running the full
`update()` a second time without the clock advancing in between leaves the
resulting stamina value unchanged. -/
theorem C3_stamina_recomputed (st : StaminaState) (ts : TimeState)
    (hmax : st.maximum = 100) :
    ((updateStaminaDepletion st ts).current =
      max 0 (min st.maximum (st.maximum -
        (continuousTotalHours ts - st.lastSleepTime) * (st.maximum / 17))))
    ∧ (continuousTotalHours ts - st.lastSleepTime = 17 / 2 →
        (updateStaminaDepletion st ts).current = 50)
    ∧ ((staminaUpdate (staminaUpdate st ts).1 (staminaUpdate st ts).2.1).1.current =
        (staminaUpdate st ts).1.current) := by
  refine ⟨?_, ?_, ?_⟩
  · rw [updateStaminaDepletion_current, hmax]
    unfold staminaComputed
    rcases le_total 0 (100 - (continuousTotalHours ts - st.lastSleepTime) * (100 / 17))
      with hx | hx
    · rw [max_eq_right hx]
    · rw [max_eq_left hx, min_eq_right (hx.trans (by norm_num)),
        max_eq_left hx, min_eq_right (by norm_num : (0:ℚ) ≤ 100), max_self]
  · intro h
    rw [updateStaminaDepletion_current, hmax]
    unfold staminaComputed
    rw [h]
    norm_num
  · by_cases hfire : (staminaStep3 st ts).current ≤ 0 ∧
        (staminaStep3 st ts).lastPenaltyDay < (getCurrentGameTime ts).day
    · rw [staminaUpdate_eq st ts, checkAutoSleep_fire hfire]
      have hmax4 : ({ staminaStep3 st ts with
          lastPenaltyDay := (getCurrentGameTime ts).day } : StaminaState).maximum = 100 := by
        show (staminaStep3 st ts).maximum = 100
        rw [(staminaStep3_proj st ts).2.1]
        exact hmax
      set st4 : StaminaState :=
        { staminaStep3 st ts with lastPenaltyDay := (getCurrentGameTime ts).day } with hst4
      have hfirst : (autoSleep st4 ts).1.current = 100 := by
        rw [(autoSleep_proj st4 ts).1, hmax4]
      have hsecond3 : (staminaStep3 (autoSleep st4 ts).1 (autoSleep st4 ts).2).current
          = 100 := by
        rw [(staminaStep3_proj _ _).1, (autoSleep_proj st4 ts).2.1, hmax4,
          (autoSleep_proj st4 ts).2.2.1, staminaComputed_rested]
      have hnof : ¬((staminaStep3 (autoSleep st4 ts).1 (autoSleep st4 ts).2).current ≤ 0 ∧
          (staminaStep3 (autoSleep st4 ts).1 (autoSleep st4 ts).2).lastPenaltyDay <
            (getCurrentGameTime (autoSleep st4 ts).2).day) := by
        intro hc
        rw [hsecond3] at hc
        norm_num at hc
      show (staminaUpdate (autoSleep st4 ts).1 (autoSleep st4 ts).2).1.current = _
      rw [staminaUpdate_eq, checkAutoSleep_no_fire hnof]
      show (staminaStep3 (autoSleep st4 ts).1 (autoSleep st4 ts).2).current = _
      rw [hsecond3, hfirst]
    · rw [staminaUpdate_eq st ts, checkAutoSleep_no_fire hfire]
      show (staminaUpdate (staminaStep3 st ts) ts).1.current =
        (staminaStep3 st ts).current
      have hsame : (staminaStep3 (staminaStep3 st ts) ts).current =
          (staminaStep3 st ts).current := by
        rw [(staminaStep3_proj (staminaStep3 st ts) ts).1,
          (staminaStep3_proj st ts).2.1, (staminaStep3_proj st ts).2.2.1,
          (staminaStep3_proj st ts).1]
      have hnof2 : ¬((staminaStep3 (staminaStep3 st ts) ts).current ≤ 0 ∧
          (staminaStep3 (staminaStep3 st ts) ts).lastPenaltyDay <
            (getCurrentGameTime ts).day) := by
        intro hc
        apply hfire
        rw [hsame] at hc
        rw [(staminaStep3_proj (staminaStep3 st ts) ts).2.2.2] at hc
        exact hc
      rw [staminaUpdate_eq, checkAutoSleep_no_fire hnof2]
      show (staminaStep3 (staminaStep3 st ts) ts).current = _
      exact hsame

/-- A clock state 8.5 hours after the initial 7 AM sleep anchor. -/
def exampleTs85 : TimeState :=
  { day := 1, secondsIntoDay := 31/2, dayDurationSeconds := 24
    seasonIndex := 0, weather := Weather.clear }

theorem C3_stamina_recomputed_witness :
    (updateStaminaDepletion initialStaminaState exampleTs85).current = 50 :=
  (C3_stamina_recomputed initialStaminaState exampleTs85 rfl).2.1
    (by norm_num [continuousTotalHours, exampleTs85, initialStaminaState,
      defaultStaminaConfig])

/-- C4: the zero-stamina coin penalty fires exactly once per in-game day:
from a state whose recomputed stamina is 0 and whose penalty sentinel is
behind the current day, any number of further `update()` calls invoke the
coin-penalty callback exactly once in total; the firing update warps the
clock to 7 AM and restores stamina to the maximum. -/
theorem C4_penalty_once (st : StaminaState) (ts : TimeState) (n : ℕ)
    (hmax : st.maximum = 100)
    (hzero : (updateStaminaDepletion st ts).current = 0)
    (hday : st.lastPenaltyDay < (getCurrentGameTime ts).day) :
    (staminaIter (n + 1) st ts).2.2 = 1
    ∧ (staminaUpdate st ts).2.1.secondsIntoDay = (7 / 24) * ts.dayDurationSeconds
    ∧ (staminaUpdate st ts).1.current = st.maximum := by
  have hcur : (staminaStep3 st ts).current = 0 := by
    rw [(staminaStep3_proj st ts).1, ← updateStaminaDepletion_current, hzero]
  have hfire : (staminaStep3 st ts).current ≤ 0 ∧
      (staminaStep3 st ts).lastPenaltyDay < (getCurrentGameTime ts).day := by
    rw [hcur, (staminaStep3_proj st ts).2.2.2]
    exact ⟨le_refl 0, hday⟩
  have hupd := staminaUpdate_eq st ts ▸ checkAutoSleep_fire hfire
  set st4 : StaminaState :=
    { staminaStep3 st ts with lastPenaltyDay := (getCurrentGameTime ts).day } with hst4
  have hmax4 : st4.maximum = 100 := by
    show (staminaStep3 st ts).maximum = 100
    rw [(staminaStep3_proj st ts).2.1]
    exact hmax
  refine ⟨?_, ?_, ?_⟩
  · rw [staminaIter_succ, hupd]
    have hrest := staminaIter_no_penalty n (autoSleep st4 ts).1 (autoSleep st4 ts).2
      (by rw [(autoSleep_proj st4 ts).2.1]; exact hmax4)
      ((autoSleep_proj st4 ts).2.2.1)
    simpa using hrest
  · rw [hupd]
    exact (autoSleep_proj st4 ts).2.2.2.1
  · rw [hupd]
    show (autoSleep st4 ts).1.current = st.maximum
    rw [(autoSleep_proj st4 ts).1]
    show (staminaStep3 st ts).maximum = st.maximum
    exact (staminaStep3_proj st ts).2.1

/-- A clock state at midnight after day 1 (17 hours awake), day counter 2. -/
def exampleTsMidnight : TimeState :=
  { day := 2, secondsIntoDay := 0, dayDurationSeconds := 24
    seasonIndex := 0, weather := Weather.clear }

theorem C4_penalty_once_witness :
    (staminaIter 1000 initialStaminaState exampleTsMidnight).2.2 = 1
    ∧ (staminaUpdate initialStaminaState exampleTsMidnight).2.1.secondsIntoDay =
        (7 / 24) * exampleTsMidnight.dayDurationSeconds
    ∧ (staminaUpdate initialStaminaState exampleTsMidnight).1.current =
        initialStaminaState.maximum :=
  C4_penalty_once initialStaminaState exampleTsMidnight 999 rfl
    (by norm_num [updateStaminaDepletion, continuousTotalHours,
      exampleTsMidnight, initialStaminaState, defaultStaminaConfig])
    (by norm_num [getCurrentGameTime, exampleTsMidnight, initialStaminaState,
      defaultStaminaConfig])

/-! ## C6: collision resolution -/

/-- Left obstacle column: x ∈ [0, 20]. -/
def rectA : Rect := { x := 0, y := 0, w := 20, h := 100 }

/-- Right obstacle column: x ∈ [20, 40]. -/
def rectB : Rect := { x := 20, y := 0, w := 20, h := 100 }

/-- Counterexample to the universal containment post-condition: a 20 × 20
sprite player idling (dx = dy = 0) at (20, 0) between two abutting obstacle
columns is pushed right out of `rectA` and then pushed left out of `rectB`,
back into `rectA`: after `resolveCollisions` the feet hitbox still overlaps
the supplied rectangle `rectA`. -/
theorem C6_collision_containment_cex :
    resolveCollisions 20 20 20 0 0 0 [rectA, rectB] = (14, 0) ∧
    rectA ∈ [rectA, rectB] ∧
    rectsOverlap
      (feetBox 20 20 (resolveCollisions 20 20 20 0 0 0 [rectA, rectB]).1
        (resolveCollisions 20 20 20 0 0 0 [rectA, rectB]).2) rectA := by
  have hres : resolveCollisions 20 20 20 0 0 0 [rectA, rectB] = (14, 0) := by
    have hW : max (6:ℚ) (min (20 * RENDER_CONFIG.playerScale)
        (20 * RENDER_CONFIG.playerScale * PLAYER_CONFIG.feetCollisionBox.widthRatio)) = 12 := by
      norm_num [RENDER_CONFIG, PLAYER_CONFIG]
    have hstep1 : resolveStep 20 20 0 0 ((20 : ℚ), (0 : ℚ)) rectA = (26, 0) := by
      unfold resolveStep feetBox
      rw [if_pos (by unfold rectsOverlap; norm_num [rectA, RENDER_CONFIG, PLAYER_CONFIG])]
      rw [if_pos (by norm_num)]
      rw [if_neg (by norm_num), if_neg (by norm_num)]
      rw [if_neg (by norm_num [rectA, RENDER_CONFIG, PLAYER_CONFIG])]
      norm_num [rectA, RENDER_CONFIG, PLAYER_CONFIG]
    have hstep2 : resolveStep 20 20 0 0 ((26 : ℚ), (0 : ℚ)) rectB = (14, 0) := by
      unfold resolveStep feetBox
      rw [if_pos (by unfold rectsOverlap; norm_num [rectB, RENDER_CONFIG, PLAYER_CONFIG])]
      rw [if_pos (by norm_num)]
      rw [if_neg (by norm_num), if_neg (by norm_num)]
      rw [if_pos (by norm_num [rectB, RENDER_CONFIG, PLAYER_CONFIG])]
      norm_num [rectB, RENDER_CONFIG, PLAYER_CONFIG]
    show (if (20 : ℚ) = 0 ∨ (20 : ℚ) = 0 then ((20 : ℚ), (0 : ℚ))
      else [rectA, rectB].foldl (resolveStep 20 20 0 0) (20, 0)) = (14, 0)
    rw [if_neg (by norm_num)]
    show resolveStep 20 20 0 0 (resolveStep 20 20 0 0 (20, 0) rectA) rectB = (14, 0)
    rw [hstep1, hstep2]
  refine ⟨hres, by simp, ?_⟩
  rw [hres]
  unfold rectsOverlap feetBox
  norm_num [rectA, RENDER_CONFIG, PLAYER_CONFIG]

/-- C6 (amended): containment holds for the rectangle being resolved — in
particular, with a list of at most one rectangle, after `resolveCollisions`
the feet hitbox does not overlap it (the push amount along the chosen axis
exactly separates the boxes); the original claim over arbitrary lists fails
because sequential resolution against a later rectangle can push the feet
back into an earlier one. -/
theorem C6_collision_containment_single (sfw sfh x y dx dy : ℚ) (r : Rect)
    (hw : sfw ≠ 0) (hh : sfh ≠ 0) :
    ¬ rectsOverlap
      (feetBox sfw sfh (resolveCollisions sfw sfh x y dx dy [r]).1
        (resolveCollisions sfw sfh x y dx dy [r]).2) r := by
  intro hov
  rw [show resolveCollisions sfw sfh x y dx dy [r] = resolveStep sfw sfh dx dy (x, y) r from by
    unfold resolveCollisions
    rw [if_neg (not_or.mpr ⟨hw, hh⟩)]
    rfl] at hov
  by_cases h0 : rectsOverlap (feetBox sfw sfh x y) r
  · unfold resolveStep at hov
    rw [if_pos (by exact h0)] at hov
    dsimp only at hov
    split_ifs at hov <;>
      (unfold rectsOverlap feetBox at hov
       dsimp only at hov
       obtain ⟨h1, h2, h3, h4⟩ := hov
       linarith)
  · rw [show resolveStep sfw sfh dx dy (x, y) r = (x, y) from by
      unfold resolveStep
      rw [if_neg (by exact h0)]] at hov
    exact h0 hov

theorem C6_collision_containment_single_witness :
    ¬ rectsOverlap
      (feetBox 20 20 (resolveCollisions 20 20 20 0 0 0 [rectA]).1
        (resolveCollisions 20 20 20 0 0 0 [rectA]).2) rectA :=
  C6_collision_containment_single 20 20 20 0 0 0 rectA (by norm_num) (by norm_num)

end GrowingStars
